import Mathlib

/-!
# CMOS real-time clock driver (`cmos-rtc.cpp`)

A shallow embedding of the class `CMOSRTC`: the register accessor
(`get_register`), the update-synchronised snapshot reader (`get_timepoint`),
the mode detection (`is_bcd`), the BCD decoder (`convert_BCD_to_binary`) and
the public entry point (`read_timepoint`).

The hardware is a parameter: a `Device` is an arbitrary state machine answering
port writes and port reads.  Every operation threads a `Machine` (device state
plus the trace of events performed so far).  The two `while` loops of the
source carry a fuel argument and return `none` when the fuel runs out.
Machine integers are natural numbers, truncated explicitly where the source
stores into a `uint8_t`.
-/

namespace CMOSRTC

/-! ## Data model -/

/-- Modelled from the spec: the struct `RTCTimePoint` is declared in
`infos/drivers/timer/rtc.h`, which is not part of the sources; the spec gives it
six unsigned byte-sized fields, in this order. -/
structure RTCTimePoint where
  seconds : Nat
  minutes : Nat
  hours : Nat
  day_of_month : Nat
  month : Nat
  year : Nat
deriving DecidableEq, Repr

/-- Observable actions of the driver: taking and dropping the `UniqueIRQLock`,
writing a byte to a port, reading a byte from a port. -/
inductive Event where
  | irq_lock : Event
  | irq_unlock : Event
  | outb (port : Nat) (val : Nat) : Event
  | inb (port : Nat) (val : Nat) : Event
deriving DecidableEq, Repr

/-- The hardware behind the two I/O ports: any state machine that reacts to a
port write and answers a port read. -/
structure Device (σ : Type) where
  outb : σ → Nat → Nat → σ
  inb : σ → Nat → Nat × σ

/-- The device state together with the trace of events so far (oldest first). -/
structure Machine (σ : Type) where
  dev : σ
  trace : List Event

/-! ## External primitives -/

/-- Modelled from the spec: `__outb` of `arch/x86/pio.h` (not part of the
sources) writes one byte to a numbered I/O port. -/
def __outb {σ : Type} (d : Device σ) (port : Nat) (val : Nat) (m : Machine σ) : Machine σ :=
  { dev := d.outb m.dev port (val % 256),
    trace := m.trace ++ [Event.outb port (val % 256)] }

/-- Modelled from the spec: `__inb` of `arch/x86/pio.h` (not part of the
sources) reads one byte from a numbered I/O port. -/
def __inb {σ : Type} (d : Device σ) (port : Nat) (m : Machine σ) : Nat × Machine σ :=
  ((d.inb m.dev port).1 % 256,
   { dev := (d.inb m.dev port).2,
     trace := m.trace ++ [Event.inb port ((d.inb m.dev port).1 % 256)] })

/-- Modelled from the spec: construction of a `UniqueIRQLock`
(`infos/util/lock.h`, not part of the sources) suppresses interrupt delivery. -/
def irq_lock {σ : Type} (m : Machine σ) : Machine σ :=
  { m with trace := m.trace ++ [Event.irq_lock] }

/-- Modelled from the spec: destruction of a `UniqueIRQLock` at the end of its
scope releases the hold. -/
def irq_unlock {σ : Type} (m : Machine σ) : Machine σ :=
  { m with trace := m.trace ++ [Event.irq_unlock] }

/-! ## The driver -/

/-- The source's `uint8_t get_register(int reg)`: select the register on port
`0x70`, then read port `0x71`. -/
def get_register {σ : Type} (d : Device σ) (reg : Nat) (m : Machine σ) : Nat × Machine σ :=
  __inb d 0x71 (__outb d 0x70 reg m)

/-- The source's `uint8_t get_register(int reg, int bit)`:
`(get_register(reg) >> bit) & 1`. -/
def get_register_bit {σ : Type} (d : Device σ) (reg : Nat) (bit : Nat) (m : Machine σ) :
    Nat × Machine σ :=
  ((((get_register d reg m).1 >>> bit) &&& 1) % 256, (get_register d reg m).2)

/-- The source's `is_bcd`: under the lock, test bit 2 of status register B. -/
def is_bcd {σ : Type} (d : Device σ) (m : Machine σ) : Bool × Machine σ :=
  let m0 := irq_lock m
  let r := get_register_bit d 0xB 2 m0
  if r.1 == 0 then (true, irq_unlock r.2) else (false, irq_unlock r.2)

/-- The expression assigned to each field by `convert_BCD_to_binary`, stored
back into a byte-sized field. -/
def bcd_field (x : Nat) : Nat :=
  (((x >>> 4) * 10) + (x &&& 0xF)) % 256

/-- The source's `convert_BCD_to_binary`. -/
def convert_BCD_to_binary (tp : RTCTimePoint) : RTCTimePoint :=
  { seconds := bcd_field tp.seconds,
    minutes := bcd_field tp.minutes,
    hours := bcd_field tp.hours,
    day_of_month := bcd_field tp.day_of_month,
    month := bcd_field tp.month,
    year := bcd_field tp.year }

/-- The loop `while (bit != 0) { bit = get_register(0xA, 7) == 0; }` of
`get_timepoint`, entered with the current value of `bit`. -/
def get_timepoint_wait {σ : Type} (d : Device σ) : Nat → Bool → Machine σ → Option (Machine σ)
  | _, false, m => some m
  | 0, true, _ => none
  | fuel + 1, true, m =>
    get_timepoint_wait d fuel ((get_register_bit d 0xA 7 m).1 == 0) (get_register_bit d 0xA 7 m).2

/-- The six register reads of the `return RTCTimePoint{...}` of `get_timepoint`,
in the order of the initialiser list. -/
def get_timepoint_fields {σ : Type} (d : Device σ) (m : Machine σ) : RTCTimePoint × Machine σ :=
  let s := get_register d 0x00 m
  let mi := get_register d 0x02 s.2
  let h := get_register d 0x04 mi.2
  let dm := get_register d 0x07 h.2
  let mo := get_register d 0x08 dm.2
  let y := get_register d 0x09 mo.2
  ({ seconds := s.1, minutes := mi.1, hours := h.1,
     day_of_month := dm.1, month := mo.1, year := y.1 }, y.2)

/-- The source's `get_timepoint`: take the lock, compute
`bit = get_register(0xA, 7) == 0`, run the wait loop, read the six fields, drop
the lock. -/
def get_timepoint {σ : Type} (d : Device σ) (fuel : Nat) (m : Machine σ) :
    Option (RTCTimePoint × Machine σ) :=
  let m0 := irq_lock m
  let r := get_register_bit d 0xA 7 m0
  let bit := (r.1 == 0)
  match get_timepoint_wait d fuel bit r.2 with
  | none => none
  | some m1 =>
    let f := get_timepoint_fields d m1
    some (f.1, irq_unlock f.2)

/-- The condition of the `do ... while` loop of `read_timepoint`, as written in
the source. -/
def read_timepoint_cond (tp prev : RTCTimePoint) : Bool :=
  !(tp.seconds == prev.seconds) &&
    (tp.minutes == prev.minutes) &&
    (tp.hours == prev.hours) &&
    (tp.day_of_month == prev.day_of_month) &&
    (tp.month == prev.month) && (tp.year == prev.year) &&
    true

/-- State of `read_timepoint` when its retry loop is left: the two local
variables and the machine. -/
structure LoopExit (σ : Type) where
  prev : RTCTimePoint
  tp : RTCTimePoint
  mach : Machine σ

/-- The `do { prev = tp; tp = get_timepoint(); } while (...)` loop of
`read_timepoint`, entered with the current value of `tp`. -/
def read_timepoint_loop {σ : Type} (d : Device σ) (fuel : Nat) :
    Nat → RTCTimePoint → Machine σ → Option (LoopExit σ)
  | 0, _, _ => none
  | n + 1, tp, m =>
    match get_timepoint d fuel m with
    | none => none
    | some (tp1, m1) =>
      if read_timepoint_cond tp1 tp then read_timepoint_loop d fuel n tp1 m1
      else some { prev := tp, tp := tp1, mach := m1 }

/-- The part of `read_timepoint` up to the end of the retry loop: the first
`get_timepoint`, then the loop. -/
def read_timepoint_snapshot {σ : Type} (d : Device σ) (fuel : Nat) (m : Machine σ) :
    Option (LoopExit σ) :=
  match get_timepoint d fuel m with
  | none => none
  | some (tp, m1) => read_timepoint_loop d fuel fuel tp m1

/-- The source's `read_timepoint`: the accepted snapshot, converted when
`is_bcd()` holds. -/
def read_timepoint {σ : Type} (d : Device σ) (fuel : Nat) (m : Machine σ) :
    Option (RTCTimePoint × Machine σ) :=
  match read_timepoint_snapshot d fuel m with
  | none => none
  | some e =>
    if (is_bcd d e.mach).1 then some (convert_BCD_to_binary e.tp, (is_bcd d e.mach).2)
    else some (e.tp, (is_bcd d e.mach).2)

/-! ## A simulated device

The spec's testable properties speak of a simulated update flag and simulated
snapshots.  `SimRTC` is such a device: a queue of status-A bytes, a queue of
snapshots, and a fixed status-B byte. -/

/-- State of the simulated clock: the selected register index, the bytes that
successive reads of status register A will return (`flag_rest` once the queue
is empty), the snapshots still to be delivered (the head is the current one),
and the content of status register B. -/
structure SimRTC where
  sel : Nat
  flags : List Nat
  flag_rest : Nat
  snaps : List RTCTimePoint
  status_b : Nat
deriving DecidableEq, Repr

/-- The snapshot the simulated clock currently shows. -/
def SimRTC.current (s : SimRTC) : RTCTimePoint :=
  s.snaps.headD { seconds := 0, minutes := 0, hours := 0, day_of_month := 0, month := 0, year := 0 }

/-- A write to port `0x70` selects a register; other ports are not connected. -/
def SimRTC.outb (s : SimRTC) (port : Nat) (val : Nat) : SimRTC :=
  if port = 0x70 then { s with sel := val } else s

/-- A read of port `0x71` returns the selected register.  Reading status A
consumes one queued flag byte; reading the year register (the last one of a
snapshot) moves on to the next queued snapshot, if there is one. -/
def SimRTC.inb (s : SimRTC) (port : Nat) : Nat × SimRTC :=
  if port = 0x71 then
    if s.sel = 0x00 then (s.current.seconds, s)
    else if s.sel = 0x02 then (s.current.minutes, s)
    else if s.sel = 0x04 then (s.current.hours, s)
    else if s.sel = 0x07 then (s.current.day_of_month, s)
    else if s.sel = 0x08 then (s.current.month, s)
    else if s.sel = 0x09 then
      (s.current.year, { s with snaps := if s.snaps.tail = [] then s.snaps else s.snaps.tail })
    else if s.sel = 0x0A then (s.flags.headD s.flag_rest, { s with flags := s.flags.tail })
    else if s.sel = 0x0B then (s.status_b, s)
    else (0, s)
  else (0, s)

/-- The simulated clock as a `Device`. -/
def simDevice : Device SimRTC :=
  { outb := SimRTC.outb, inb := SimRTC.inb }

/-- A machine that starts on a simulated clock with an empty trace. -/
def simStart (flags : List Nat) (flag_rest : Nat) (snaps : List RTCTimePoint) (status_b : Nat) :
    Machine SimRTC :=
  { dev := { sel := 0, flags := flags, flag_rest := flag_rest, snaps := snaps,
             status_b := status_b },
    trace := [] }

/-- The raw snapshot of the spec's end-to-end scenarios A and B. -/
def scenarioRaw : RTCTimePoint :=
  { seconds := 0x45, minutes := 0x30, hours := 0x12, day_of_month := 0x25, month := 0x09,
    year := 0x23 }

/-- A snapshot one minute apart from `scenarioRaw`, with the same seconds. -/
def tornRaw : RTCTimePoint :=
  { seconds := 0x45, minutes := 0x31, hours := 0x12, day_of_month := 0x25, month := 0x09,
    year := 0x23 }

/-- A later snapshot, differing from `tornRaw` in the seconds. -/
def laterRaw : RTCTimePoint :=
  { seconds := 0x46, minutes := 0x31, hours := 0x12, day_of_month := 0x25, month := 0x09,
    year := 0x23 }

/-- Every field is a byte. -/
def RTCTimePoint.IsByte (tp : RTCTimePoint) : Prop :=
  tp.seconds < 256 ∧ tp.minutes < 256 ∧ tp.hours < 256 ∧
    tp.day_of_month < 256 ∧ tp.month < 256 ∧ tp.year < 256

/-- Port accesses, as opposed to lock events. -/
def Event.isPort : Event → Bool
  | Event.outb _ _ => true
  | Event.inb _ _ => true
  | Event.irq_lock => false
  | Event.irq_unlock => false

/-- Replays a trace from a given number of `UniqueIRQLock` objects alive.  The
replay fails on a port access made while no lock is held and on a release
without a matching acquisition; otherwise it gives the number of locks still
held at the end. -/
def lock_scan : Nat → List Event → Option Nat
  | n, [] => some n
  | n, Event.irq_lock :: t => lock_scan (n + 1) t
  | 0, Event.irq_unlock :: _ => none
  | n + 1, Event.irq_unlock :: t => lock_scan n t
  | 0, Event.outb _ _ :: _ => none
  | n + 1, Event.outb _ _ :: t => lock_scan (n + 1) t
  | 0, Event.inb _ _ :: _ => none
  | n + 1, Event.inb _ _ :: t => lock_scan (n + 1) t

/-- A time point with the same byte in every field. -/
def uniformRaw (x : Nat) : RTCTimePoint :=
  { seconds := x, minutes := x, hours := x, day_of_month := x, month := x, year := x }

/-! ## Auxiliary facts -/

theorem shiftRight_four (x : Nat) : x >>> 4 = x / 16 := by
  rw [Nat.shiftRight_eq_div_pow]

theorem and_fifteen (x : Nat) : x &&& 0xF = x % 16 :=
  Nat.and_pow_two_sub_one_eq_mod x 4

theorem and_one (x : Nat) : x &&& 1 = x % 2 :=
  Nat.and_pow_two_sub_one_eq_mod x 1

/-- On a byte the decode expression fits the byte-sized field it is stored in. -/
theorem bcd_field_of_byte (x : Nat) (hx : x < 256) :
    bcd_field x = (x >>> 4) * 10 + (x &&& 0xF) := by
  unfold bcd_field
  rw [shiftRight_four, and_fifteen]
  omega

/-- Decoding the byte with tens nibble `t` and units nibble `u`. -/
theorem bcd_field_encode (t u : Nat) (ht : t ≤ 9) (hu : u ≤ 9) :
    bcd_field ((t <<< 4) ||| u) = 10 * t + u := by
  interval_cases t <;> interval_cases u <;> rfl

theorem get_register_lt {σ : Type} (d : Device σ) (reg : Nat) (m : Machine σ) :
    (get_register d reg m).1 < 256 := by
  simp only [get_register, __inb]
  exact Nat.mod_lt _ (by norm_num)

theorem get_timepoint_fields_isByte {σ : Type} (d : Device σ) (m : Machine σ) :
    (get_timepoint_fields d m).1.IsByte := by
  simp only [get_timepoint_fields, RTCTimePoint.IsByte]
  exact ⟨get_register_lt _ _ _, get_register_lt _ _ _, get_register_lt _ _ _,
    get_register_lt _ _ _, get_register_lt _ _ _, get_register_lt _ _ _⟩

/-- What `get_timepoint` returns, when it returns: the six fields read once the
wait loop has ended. -/
theorem get_timepoint_eq_some {σ : Type} (d : Device σ) (fuel : Nat) (m : Machine σ)
    (tp : RTCTimePoint) (m2 : Machine σ) (h : get_timepoint d fuel m = some (tp, m2)) :
    ∃ m1, get_timepoint_wait d fuel ((get_register_bit d 0xA 7 (irq_lock m)).1 == 0)
        (get_register_bit d 0xA 7 (irq_lock m)).2 = some m1 ∧
      tp = (get_timepoint_fields d m1).1 ∧ m2 = irq_unlock (get_timepoint_fields d m1).2 := by
  unfold get_timepoint at h
  simp only at h
  split at h
  · exact absurd h (by simp)
  · rename_i m1 hw
    refine ⟨m1, hw, ?_, ?_⟩
    · exact (congrArg Prod.fst (Option.some.inj h)).symm
    · exact (congrArg Prod.snd (Option.some.inj h)).symm

theorem get_timepoint_isByte {σ : Type} (d : Device σ) (fuel : Nat) (m : Machine σ)
    (tp : RTCTimePoint) (m2 : Machine σ) (h : get_timepoint d fuel m = some (tp, m2)) :
    tp.IsByte := by
  obtain ⟨m1, -, htp, -⟩ := get_timepoint_eq_some d fuel m tp m2 h
  rw [htp]
  exact get_timepoint_fields_isByte d m1

/-- When the retry loop is left, `tp` is the snapshot `get_timepoint` returned
last. -/
theorem read_timepoint_loop_isByte {σ : Type} (d : Device σ) (fuel : Nat) :
    ∀ (n : Nat) (tp : RTCTimePoint) (m : Machine σ) (e : LoopExit σ),
      read_timepoint_loop d fuel n tp m = some e → e.tp.IsByte := by
  intro n
  induction n with
  | zero => intro tp m e h; simp [read_timepoint_loop] at h
  | succ n ih =>
    intro tp m e h
    unfold read_timepoint_loop at h
    split at h
    · exact absurd h (by simp)
    · rename_i tp1 m1 hg
      split at h
      · exact ih tp1 m1 e h
      · have he : e = { prev := tp, tp := tp1, mach := m1 } := (Option.some.inj h).symm
        rw [he]
        exact get_timepoint_isByte d fuel m tp1 m1 hg

theorem read_timepoint_snapshot_isByte {σ : Type} (d : Device σ) (fuel : Nat) (m : Machine σ)
    (e : LoopExit σ) (h : read_timepoint_snapshot d fuel m = some e) : e.tp.IsByte := by
  unfold read_timepoint_snapshot at h
  split at h
  · exact absurd h (by simp)
  · exact read_timepoint_loop_isByte d fuel fuel _ _ e h

/-- The value `is_bcd` returns, in terms of the byte read from status register B. -/
theorem is_bcd_fst {σ : Type} (d : Device σ) (m : Machine σ) :
    (is_bcd d m).1 = ((((get_register d 0xB (irq_lock m)).1 >>> 2) &&& 1) == 0) := by
  have hlt : (((get_register d 0xB (irq_lock m)).1 >>> 2) &&& 1) % 256
      = ((get_register d 0xB (irq_lock m)).1 >>> 2) &&& 1 := by
    rw [and_one]; omega
  simp only [is_bcd, get_register_bit, hlt]
  split <;> simp_all


/-! ## BCD decoding -/

/-- C1: BCD round trip. For tens digits and units digits in 0..9, the decode of
`convert_BCD_to_binary` applied to the bytes `(t << 4) | u` gives `10 * t + u`
in each of the six fields, and each of these values lies in 0..99. -/
theorem convert_BCD_to_binary_roundtrip
    (ts us tm um th uh td ud tn un ty uy : Nat)
    (hs : ts ≤ 9 ∧ us ≤ 9) (hm : tm ≤ 9 ∧ um ≤ 9) (hh : th ≤ 9 ∧ uh ≤ 9)
    (hd : td ≤ 9 ∧ ud ≤ 9) (hn : tn ≤ 9 ∧ un ≤ 9) (hy : ty ≤ 9 ∧ uy ≤ 9) :
    convert_BCD_to_binary
        { seconds := (ts <<< 4) ||| us, minutes := (tm <<< 4) ||| um,
          hours := (th <<< 4) ||| uh, day_of_month := (td <<< 4) ||| ud,
          month := (tn <<< 4) ||| un, year := (ty <<< 4) ||| uy }
      = { seconds := 10 * ts + us, minutes := 10 * tm + um, hours := 10 * th + uh,
          day_of_month := 10 * td + ud, month := 10 * tn + un, year := 10 * ty + uy } ∧
    10 * ts + us ≤ 99 ∧ 10 * tm + um ≤ 99 ∧ 10 * th + uh ≤ 99 ∧
    10 * td + ud ≤ 99 ∧ 10 * tn + un ≤ 99 ∧ 10 * ty + uy ≤ 99 := by
  refine ⟨?_, by omega, by omega, by omega, by omega, by omega, by omega⟩
  simp only [convert_BCD_to_binary]
  rw [bcd_field_encode ts us hs.1 hs.2, bcd_field_encode tm um hm.1 hm.2,
    bcd_field_encode th uh hh.1 hh.2, bcd_field_encode td ud hd.1 hd.2,
    bcd_field_encode tn un hn.1 hn.2, bcd_field_encode ty uy hy.1 hy.2]

/-- Witness for C1: the digits of 45, 30, 12, 25, 09, 23. -/
theorem convert_BCD_to_binary_roundtrip_witness :
    convert_BCD_to_binary
        { seconds := (4 <<< 4) ||| 5, minutes := (3 <<< 4) ||| 0,
          hours := (1 <<< 4) ||| 2, day_of_month := (2 <<< 4) ||| 5,
          month := (0 <<< 4) ||| 9, year := (2 <<< 4) ||| 3 }
      = { seconds := 10 * 4 + 5, minutes := 10 * 3 + 0, hours := 10 * 1 + 2,
          day_of_month := 10 * 2 + 5, month := 10 * 0 + 9, year := 10 * 2 + 3 } ∧
    10 * 4 + 5 ≤ 99 ∧ 10 * 3 + 0 ≤ 99 ∧ 10 * 1 + 2 ≤ 99 ∧
    10 * 2 + 5 ≤ 99 ∧ 10 * 0 + 9 ≤ 99 ∧ 10 * 2 + 3 ≤ 99 :=
  convert_BCD_to_binary_roundtrip 4 5 3 0 1 2 2 5 0 9 2 3
    ⟨by decide, by decide⟩ ⟨by decide, by decide⟩ ⟨by decide, by decide⟩
    ⟨by decide, by decide⟩ ⟨by decide, by decide⟩ ⟨by decide, by decide⟩

/-! ## Normalisation in `read_timepoint` -/

/-- C2: BCD-mode normalisation. If `read_timepoint` leaves its retry loop with
raw snapshot `e.tp` and the byte then read from status register B has bit 2
equal to 0, `read_timepoint` returns, and each of the six returned fields is
`(raw >> 4) * 10 + (raw & 0xF)` of the same raw field. -/
theorem read_timepoint_bcd_mode {σ : Type} (d : Device σ) (fuel : Nat) (m : Machine σ)
    (e : LoopExit σ) (hs : read_timepoint_snapshot d fuel m = some e)
    (hb : ((get_register d 0xB (irq_lock e.mach)).1 >>> 2) &&& 1 = 0) :
    ∃ tp m2, read_timepoint d fuel m = some (tp, m2) ∧
      tp.seconds = (e.tp.seconds >>> 4) * 10 + (e.tp.seconds &&& 0xF) ∧
      tp.minutes = (e.tp.minutes >>> 4) * 10 + (e.tp.minutes &&& 0xF) ∧
      tp.hours = (e.tp.hours >>> 4) * 10 + (e.tp.hours &&& 0xF) ∧
      tp.day_of_month = (e.tp.day_of_month >>> 4) * 10 + (e.tp.day_of_month &&& 0xF) ∧
      tp.month = (e.tp.month >>> 4) * 10 + (e.tp.month &&& 0xF) ∧
      tp.year = (e.tp.year >>> 4) * 10 + (e.tp.year &&& 0xF) := by
  have hbcd : (is_bcd d e.mach).1 = true := by
    rw [is_bcd_fst, hb]; rfl
  obtain ⟨h1, h2, h3, h4, h5, h6⟩ := read_timepoint_snapshot_isByte d fuel m e hs
  refine ⟨convert_BCD_to_binary e.tp, (is_bcd d e.mach).2, ?_, ?_⟩
  · simp only [read_timepoint, hs, hbcd, if_true]
  · simp only [convert_BCD_to_binary]
    exact ⟨bcd_field_of_byte _ h1, bcd_field_of_byte _ h2, bcd_field_of_byte _ h3,
      bcd_field_of_byte _ h4, bcd_field_of_byte _ h5, bcd_field_of_byte _ h6⟩

/-- Witness for C2 (scenario A): the raw snapshot
`{0x45, 0x30, 0x12, 0x25, 0x09, 0x23}` with status register B equal to `0x02`
(bit 2 clear) is returned as `{45, 30, 12, 25, 9, 23}`. -/
theorem read_timepoint_bcd_mode_witness :
    (read_timepoint simDevice 1 (simStart [] 0x80 [scenarioRaw] 0x02)).map Prod.fst
      = some { seconds := 45, minutes := 30, hours := 12, day_of_month := 25, month := 9,
               year := 23 } := by
  have hs : read_timepoint_snapshot simDevice 1 (simStart [] 0x80 [scenarioRaw] 0x02)
      = some ((read_timepoint_snapshot simDevice 1
          (simStart [] 0x80 [scenarioRaw] 0x02)).get rfl) := by
    simp only [Option.some_get]
  obtain ⟨tp, m2, h, h1, h2, h3, h4, h5, h6⟩ :=
    read_timepoint_bcd_mode simDevice 1 (simStart [] 0x80 [scenarioRaw] 0x02) _ hs rfl
  rw [h]
  cases tp
  simp only [Option.map_some', RTCTimePoint.mk.injEq, Option.some.injEq]
  exact ⟨h1, h2, h3, h4, h5, h6⟩

/-- C3: binary mode is a no-op. If `read_timepoint` leaves its retry loop with
raw snapshot `e.tp` and the byte then read from status register B has bit 2
equal to 1, `read_timepoint` returns `e.tp` itself, whatever its bytes are. -/
theorem read_timepoint_binary_mode {σ : Type} (d : Device σ) (fuel : Nat) (m : Machine σ)
    (e : LoopExit σ) (hs : read_timepoint_snapshot d fuel m = some e)
    (hb : ((get_register d 0xB (irq_lock e.mach)).1 >>> 2) &&& 1 = 1) :
    ∃ m2, read_timepoint d fuel m = some (e.tp, m2) := by
  have hbcd : (is_bcd d e.mach).1 = false := by
    rw [is_bcd_fst, hb]; rfl
  refine ⟨(is_bcd d e.mach).2, ?_⟩
  simp [read_timepoint, hs, hbcd]

/-- Witness for C3 (scenario B): the raw snapshot
`{0x45, 0x30, 0x12, 0x25, 0x09, 0x23}` with status register B equal to `0x06`
(bit 2 set) is returned unchanged. -/
theorem read_timepoint_binary_mode_witness :
    (read_timepoint simDevice 1 (simStart [] 0x80 [scenarioRaw] 0x06)).map Prod.fst
      = some { seconds := 0x45, minutes := 0x30, hours := 0x12, day_of_month := 0x25,
               month := 0x09, year := 0x23 } := by
  have hs : read_timepoint_snapshot simDevice 1 (simStart [] 0x80 [scenarioRaw] 0x06)
      = some ((read_timepoint_snapshot simDevice 1
          (simStart [] 0x80 [scenarioRaw] 0x06)).get rfl) := by
    simp only [Option.some_get]
  obtain ⟨m2, h⟩ :=
    read_timepoint_binary_mode simDevice 1 (simStart [] 0x80 [scenarioRaw] 0x06) _ hs rfl
  rw [h]
  rfl


/-! ## Mode detection -/

/-- C7: mode detection. `is_bcd` returns true exactly when bit 2 of the byte
read from status register B is 0, whatever the other bits are; and when
`read_timepoint` leaves its retry loop with raw snapshot `e.tp`, it returns the
converted snapshot if `is_bcd` returns true and the raw snapshot otherwise. -/
theorem is_bcd_iff_bit_two_clear {σ : Type} (d : Device σ) (fuel : Nat) (m : Machine σ)
    (e : LoopExit σ) (hs : read_timepoint_snapshot d fuel m = some e) :
    (∀ m0 : Machine σ,
      ((is_bcd d m0).1 = true ↔ ((get_register d 0xB (irq_lock m0)).1 >>> 2) &&& 1 = 0)) ∧
    ((is_bcd d e.mach).1 = true →
      read_timepoint d fuel m = some (convert_BCD_to_binary e.tp, (is_bcd d e.mach).2)) ∧
    ((is_bcd d e.mach).1 = false →
      read_timepoint d fuel m = some (e.tp, (is_bcd d e.mach).2)) := by
  refine ⟨?_, ?_, ?_⟩
  · intro m0
    rw [is_bcd_fst]
    simp
  · intro hb
    simp only [read_timepoint, hs, hb, if_true]
  · intro hb
    simp [read_timepoint, hs, hb]

/-- Witness for C7: status register B equal to `0xFB` (only bit 2 clear) is BCD
mode, and the scenario snapshot is converted. -/
theorem is_bcd_iff_bit_two_clear_witness :
    (is_bcd simDevice (simStart [] 0x80 [scenarioRaw] 0xFB)).1 = true ∧
    (is_bcd simDevice (simStart [] 0x80 [scenarioRaw] 0x04)).1 = false ∧
    (read_timepoint simDevice 1 (simStart [] 0x80 [scenarioRaw] 0xFB)).map Prod.fst
      = some { seconds := 45, minutes := 30, hours := 12, day_of_month := 25, month := 9,
               year := 23 } := by
  have hs : read_timepoint_snapshot simDevice 1 (simStart [] 0x80 [scenarioRaw] 0xFB)
      = some ((read_timepoint_snapshot simDevice 1
          (simStart [] 0x80 [scenarioRaw] 0xFB)).get rfl) := by
    simp only [Option.some_get]
  obtain ⟨h1, h2, -⟩ :=
    is_bcd_iff_bit_two_clear simDevice 1 (simStart [] 0x80 [scenarioRaw] 0xFB) _ hs
  refine ⟨(h1 _).2 rfl, ?_, ?_⟩
  · cases hb : (is_bcd simDevice (simStart [] 0x80 [scenarioRaw] 0x04)).1
    · rfl
    · exact absurd ((h1 _).1 hb) (by decide)
  · rw [h2 rfl]
    rfl

/-! ## Register accessor -/

/-- C10: bit extraction. For a bit position `k` in 0..7, the two-argument
`get_register` returns `(b >> k) & 1` where `b` is the register byte; this is 0
or 1, and it is the `k`-th bit of `b` counted from the least significant bit. -/
theorem get_register_bit_extracts {σ : Type} (d : Device σ) (reg k : Nat) (m : Machine σ)
    (_hk : k ≤ 7) :
    (get_register d reg m).1 < 256 ∧
    (get_register_bit d reg k m).1 = ((get_register d reg m).1 >>> k) &&& 1 ∧
    ((get_register_bit d reg k m).1 = 0 ∨ (get_register_bit d reg k m).1 = 1) ∧
    (get_register_bit d reg k m).1 = (get_register d reg m).1 / 2 ^ k % 2 ∧
    ((get_register_bit d reg k m).1 = 1 ↔ (get_register d reg m).1.testBit k = true) := by
  have hv : (get_register_bit d reg k m).1 = (get_register d reg m).1 / 2 ^ k % 2 := by
    simp only [get_register_bit]
    rw [and_one, Nat.shiftRight_eq_div_pow]
    omega
  refine ⟨get_register_lt d reg m, ?_, ?_, hv, ?_⟩
  · rw [hv, and_one, Nat.shiftRight_eq_div_pow]
  · rw [hv]; omega
  · rw [hv, Nat.testBit_to_div_mod]
    simp

/-- Witness for C10: with status register B equal to `0x04`, bit 2 reads 1. -/
theorem get_register_bit_extracts_witness :
    (get_register_bit simDevice 0xB 2 (simStart [] 0x80 [scenarioRaw] 0x04)).1 = 1 :=
  ((get_register_bit_extracts simDevice 0xB 2 (simStart [] 0x80 [scenarioRaw] 0x04)
    (by decide)).2.2.2.2).2 rfl

/-! ## Snapshot reader -/

/-- C9: snapshot register mapping. When `get_timepoint` returns, then from the
machine `m1` at which its wait loop ended it performed exactly six register
reads, each a write of the index to port `0x70` followed by a read of port
`0x71`, with indices `0x00, 0x02, 0x04, 0x07, 0x08, 0x09` in this order, and
the bytes read are the fields seconds, minutes, hours, day_of_month, month and
year of the result. -/
theorem get_timepoint_register_map {σ : Type} (d : Device σ) (fuel : Nat) (m : Machine σ)
    (tp : RTCTimePoint) (m2 : Machine σ) (h : get_timepoint d fuel m = some (tp, m2)) :
    ∃ m1, get_timepoint_wait d fuel ((get_register_bit d 0xA 7 (irq_lock m)).1 == 0)
        (get_register_bit d 0xA 7 (irq_lock m)).2 = some m1 ∧
      m2.trace = m1.trace ++
        [Event.outb 0x70 0x00, Event.inb 0x71 tp.seconds,
         Event.outb 0x70 0x02, Event.inb 0x71 tp.minutes,
         Event.outb 0x70 0x04, Event.inb 0x71 tp.hours,
         Event.outb 0x70 0x07, Event.inb 0x71 tp.day_of_month,
         Event.outb 0x70 0x08, Event.inb 0x71 tp.month,
         Event.outb 0x70 0x09, Event.inb 0x71 tp.year,
         Event.irq_unlock] := by
  obtain ⟨m1, hw, htp, hm2⟩ := get_timepoint_eq_some d fuel m tp m2 h
  refine ⟨m1, hw, ?_⟩
  rw [hm2, htp]
  simp [get_timepoint_fields, get_register, __inb, __outb, irq_unlock]


/-- Witness for C9: one `get_timepoint` on the simulated clock showing the
scenario snapshot. -/
theorem get_timepoint_register_map_witness :
    ∃ m1 : Machine SimRTC,
      get_timepoint_wait simDevice 0
          ((get_register_bit simDevice 0xA 7
            (irq_lock (simStart [] 0x80 [scenarioRaw] 0x02))).1 == 0)
          (get_register_bit simDevice 0xA 7
            (irq_lock (simStart [] 0x80 [scenarioRaw] 0x02))).2 = some m1 ∧
      ((get_timepoint simDevice 0 (simStart [] 0x80 [scenarioRaw] 0x02)).get rfl).2.trace
        = m1.trace ++
          [Event.outb 0x70 0x00, Event.inb 0x71 0x45,
           Event.outb 0x70 0x02, Event.inb 0x71 0x30,
           Event.outb 0x70 0x04, Event.inb 0x71 0x12,
           Event.outb 0x70 0x07, Event.inb 0x71 0x25,
           Event.outb 0x70 0x08, Event.inb 0x71 0x09,
           Event.outb 0x70 0x09, Event.inb 0x71 0x23,
           Event.irq_unlock] :=
  get_timepoint_register_map simDevice 0 (simStart [] 0x80 [scenarioRaw] 0x02)
    scenarioRaw ((get_timepoint simDevice 0 (simStart [] 0x80 [scenarioRaw] 0x02)).get rfl).2 rfl

/-! ## Behaviour of the two loops on simulated devices -/

/-- On a simulated clock whose update flag reads 0 for ever, the wait loop of
`get_timepoint` uses up any amount of fuel. -/
theorem get_timepoint_wait_idle (fuel : Nat) :
    ∀ m : Machine SimRTC, m.dev.flags = [] → m.dev.flag_rest = 0 →
      get_timepoint_wait simDevice fuel true m = none := by
  induction fuel with
  | zero => intro m _ _; rfl
  | succ n ih =>
    intro m hf hr
    unfold get_timepoint_wait
    have hv : (get_register_bit simDevice 0xA 7 m).1 = 0 := by
      simp [get_register_bit, get_register, __inb, __outb, simDevice, SimRTC.inb, SimRTC.outb,
        hf, hr]
    have hf2 : (get_register_bit simDevice 0xA 7 m).2.dev.flags = [] := by
      simp [get_register_bit, get_register, __inb, __outb, simDevice, SimRTC.inb, SimRTC.outb,
        hf]
    have hr2 : (get_register_bit simDevice 0xA 7 m).2.dev.flag_rest = 0 := by
      simp [get_register_bit, get_register, __inb, __outb, simDevice, SimRTC.inb, SimRTC.outb,
        hr]
    rw [hv]
    exact ih _ hf2 hr2

/-- C5 (the code at the failing input): with the status-A bytes
`[0x80, 0x80, 0x80, 0x00]` (update flag 1, 1, 1, 0), `get_timepoint` polls
status A once, reads flag 1, and reads the six fields straight away; the other
three flag bytes are never read. -/
theorem get_timepoint_reads_while_flag_set (fuel : Nat) :
    (get_timepoint simDevice fuel (simStart [0x80, 0x80, 0x80, 0x00] 0x00 [scenarioRaw] 0x02)).map
        (fun r => (r.1, r.2.trace, r.2.dev.flags))
      = some (scenarioRaw,
          [Event.irq_lock,
           Event.outb 0x70 0x0A, Event.inb 0x71 0x80,
           Event.outb 0x70 0x00, Event.inb 0x71 0x45,
           Event.outb 0x70 0x02, Event.inb 0x71 0x30,
           Event.outb 0x70 0x04, Event.inb 0x71 0x12,
           Event.outb 0x70 0x07, Event.inb 0x71 0x25,
           Event.outb 0x70 0x08, Event.inb 0x71 0x09,
           Event.outb 0x70 0x09, Event.inb 0x71 0x23,
           Event.irq_unlock],
          [0x80, 0x80, 0x00]) := by
  cases fuel <;> rfl

/-- C8 (the code at the failing input): on an idle simulated clock, whose
update flag always reads 0 and whose six field registers are constant,
`read_timepoint` does not return, whatever the fuel. -/
theorem read_timepoint_idle_never_returns (fuel : Nat) (snap : RTCTimePoint) (status_b : Nat) :
    read_timepoint simDevice fuel (simStart [] 0x00 [snap] status_b) = none := by
  have hg : get_timepoint simDevice fuel (simStart [] 0x00 [snap] status_b) = none := by
    unfold get_timepoint
    have hv : (get_register_bit simDevice 0xA 7 (irq_lock (simStart [] 0x00 [snap] status_b))).1
        = 0 := by
      simp [get_register_bit, get_register, __inb, __outb, simDevice, SimRTC.inb, SimRTC.outb,
        irq_lock, simStart]
    simp only [hv]
    rw [show ((0 : Nat) == 0) = true from rfl, get_timepoint_wait_idle fuel _ rfl rfl]
  simp only [read_timepoint, read_timepoint_snapshot, hg]

/-- C4 (the code at the failing input): when the device delivers `scenarioRaw`
and then `tornRaw`, which have equal seconds and different minutes, the retry
loop of `read_timepoint` is left at once with `prev = scenarioRaw` and
`tp = tornRaw`, two snapshots that are not identical. -/
theorem read_timepoint_accepts_unequal_pair :
    (read_timepoint_snapshot simDevice 1
        (simStart [] 0x80 [scenarioRaw, tornRaw] 0x02)).map (fun e => (e.prev, e.tp))
      = some (scenarioRaw, tornRaw) ∧
    scenarioRaw.minutes ≠ tornRaw.minutes := by
  constructor
  · rfl
  · decide

/-- C6 (the code at the failing input): when the device delivers
`scenarioRaw, tornRaw, laterRaw, laterRaw` (the first two differ, the last two
are equal), `read_timepoint` accepts the second snapshot `tornRaw`, not the
third/fourth, and the last two snapshots are never read. -/
theorem read_timepoint_accepts_second_of_four :
    (read_timepoint_snapshot simDevice 3
        (simStart [] 0x80 [scenarioRaw, tornRaw, laterRaw, laterRaw] 0x02)).map
        (fun e => (e.tp, e.mach.dev.snaps))
      = some (tornRaw, [laterRaw, laterRaw]) ∧
    tornRaw ≠ laterRaw := by
  constructor
  · rfl
  · decide


/-! ## Malformed BCD, range of the decode -/

/-- C11 (as stated, refuted): the byte `0x0A` has low nibble 10, above 9, yet
`convert_BCD_to_binary` turns it into 10 in every field, which lies inside the
natural range of each of the six fields. -/
theorem convert_BCD_to_binary_malformed_in_range :
    9 < (0x0A &&& 0xF) ∧
    convert_BCD_to_binary (uniformRaw 0x0A) = uniformRaw 10 ∧
    (convert_BCD_to_binary (uniformRaw 0x0A)).seconds ≤ 59 ∧
    (convert_BCD_to_binary (uniformRaw 0x0A)).minutes ≤ 59 ∧
    (convert_BCD_to_binary (uniformRaw 0x0A)).hours ≤ 23 ∧
    (1 ≤ (convert_BCD_to_binary (uniformRaw 0x0A)).day_of_month ∧
      (convert_BCD_to_binary (uniformRaw 0x0A)).day_of_month ≤ 31) ∧
    (1 ≤ (convert_BCD_to_binary (uniformRaw 0x0A)).month ∧
      (convert_BCD_to_binary (uniformRaw 0x0A)).month ≤ 12) ∧
    (convert_BCD_to_binary (uniformRaw 0x0A)).year ≤ 99 := by
  refine ⟨by decide, rfl, ?_, ?_, ?_, ⟨?_, ?_⟩, ⟨?_, ?_⟩, ?_⟩ <;> decide

/-- C11 (amended): on every raw time point of bytes, whatever the nibbles,
`convert_BCD_to_binary` computes `(raw >> 4) * 10 + (raw & 0xF)` in each field
without rejecting anything; a field whose high nibble exceeds 9 becomes at
least 100, which is outside the natural range of each field (above 59 for
seconds and minutes, 23 for hours, 31 for day_of_month, 12 for month, 99 for
year). -/
theorem convert_BCD_to_binary_malformed (tp : RTCTimePoint) (hb : tp.IsByte) :
    (convert_BCD_to_binary tp).seconds = (tp.seconds >>> 4) * 10 + (tp.seconds &&& 0xF) ∧
    (convert_BCD_to_binary tp).minutes = (tp.minutes >>> 4) * 10 + (tp.minutes &&& 0xF) ∧
    (convert_BCD_to_binary tp).hours = (tp.hours >>> 4) * 10 + (tp.hours &&& 0xF) ∧
    (convert_BCD_to_binary tp).day_of_month
      = (tp.day_of_month >>> 4) * 10 + (tp.day_of_month &&& 0xF) ∧
    (convert_BCD_to_binary tp).month = (tp.month >>> 4) * 10 + (tp.month &&& 0xF) ∧
    (convert_BCD_to_binary tp).year = (tp.year >>> 4) * 10 + (tp.year &&& 0xF) ∧
    (9 < tp.seconds >>> 4 → 59 < (convert_BCD_to_binary tp).seconds) ∧
    (9 < tp.minutes >>> 4 → 59 < (convert_BCD_to_binary tp).minutes) ∧
    (9 < tp.hours >>> 4 → 23 < (convert_BCD_to_binary tp).hours) ∧
    (9 < tp.day_of_month >>> 4 → 31 < (convert_BCD_to_binary tp).day_of_month) ∧
    (9 < tp.month >>> 4 → 12 < (convert_BCD_to_binary tp).month) ∧
    (9 < tp.year >>> 4 → 99 < (convert_BCD_to_binary tp).year) := by
  obtain ⟨h1, h2, h3, h4, h5, h6⟩ := hb
  simp only [convert_BCD_to_binary]
  rw [bcd_field_of_byte _ h1, bcd_field_of_byte _ h2, bcd_field_of_byte _ h3,
    bcd_field_of_byte _ h4, bcd_field_of_byte _ h5, bcd_field_of_byte _ h6]
  refine ⟨rfl, rfl, rfl, rfl, rfl, rfl, ?_, ?_, ?_, ?_, ?_, ?_⟩ <;> intro h <;> omega

/-- Witness for C11 (amended): the byte `0xA5` in every field, high nibble 10,
decodes to 105 in every field. -/
theorem convert_BCD_to_binary_malformed_witness :
    (uniformRaw 0xA5).IsByte ∧ 9 < (uniformRaw 0xA5).year >>> 4 ∧
    (convert_BCD_to_binary (uniformRaw 0xA5)).year = 105 ∧
    99 < (convert_BCD_to_binary (uniformRaw 0xA5)).year := by
  have hb : (uniformRaw 0xA5).IsByte := by
    simp only [RTCTimePoint.IsByte, uniformRaw]
    decide
  have h := convert_BCD_to_binary_malformed (uniformRaw 0xA5) hb
  exact ⟨hb, by decide, h.2.2.2.2.2.1, h.2.2.2.2.2.2.2.2.2.2.2 (by decide)⟩

/-- C15: no wraparound in the decode. For every byte `x`, the value
`(x >> 4) * 10 + (x & 0xF)` is at most 165, so storing it into a field of 8 bits
(or of any larger width `w`) keeps it as it is: every field written by
`convert_BCD_to_binary` holds the mathematical result of the formula. -/
theorem bcd_field_no_wraparound (x : Nat) (hx : x < 256) :
    (x >>> 4) * 10 + (x &&& 0xF) ≤ 165 ∧
    bcd_field x = (x >>> 4) * 10 + (x &&& 0xF) ∧
    (∀ w : Nat, 8 ≤ w → ((x >>> 4) * 10 + (x &&& 0xF)) % 2 ^ w = (x >>> 4) * 10 + (x &&& 0xF)) ∧
    convert_BCD_to_binary (uniformRaw x) = uniformRaw ((x >>> 4) * 10 + (x &&& 0xF)) := by
  have hle : (x >>> 4) * 10 + (x &&& 0xF) ≤ 165 := by
    rw [shiftRight_four, and_fifteen]
    omega
  refine ⟨hle, bcd_field_of_byte x hx, ?_, ?_⟩
  · intro w hw
    apply Nat.mod_eq_of_lt
    have h256 : 2 ^ 8 ≤ 2 ^ w := Nat.pow_le_pow_right (by norm_num) hw
    have : (2 : Nat) ^ 8 = 256 := by norm_num
    omega
  · simp only [convert_BCD_to_binary, uniformRaw, bcd_field_of_byte x hx]

/-- Witness for C15: the byte `0xFF` reaches the bound, 165. -/
theorem bcd_field_no_wraparound_witness :
    (0xFF >>> 4) * 10 + (0xFF &&& 0xF) ≤ 165 ∧ bcd_field 0xFF = 165 := by
  have h := bcd_field_no_wraparound 0xFF (by decide)
  exact ⟨h.1, h.2.1.trans (by decide)⟩

/-- C16: the decode is injective on valid BCD and not on all bytes. Two bytes
whose nibbles are all in 0..9 and whose decoded values are equal are equal;
but the distinct bytes `0x0A` (low nibble 10) and `0x10` (valid BCD) both
decode to 10, so after `convert_BCD_to_binary` a malformed raw time point
equals a valid one. -/
theorem bcd_field_injective_on_valid :
    (∀ x y : Nat, x < 256 → y < 256 →
      x >>> 4 ≤ 9 → x &&& 0xF ≤ 9 → y >>> 4 ≤ 9 → y &&& 0xF ≤ 9 →
      bcd_field x = bcd_field y → x = y) ∧
    ((0x0A : Nat) ≠ 0x10 ∧ 9 < (0x0A &&& 0xF) ∧
      (0x10 >>> 4 ≤ 9 ∧ 0x10 &&& 0xF ≤ 9) ∧
      bcd_field 0x0A = bcd_field 0x10 ∧
      convert_BCD_to_binary (uniformRaw 0x0A) = convert_BCD_to_binary (uniformRaw 0x10)) := by
  constructor
  · intro x y hx hy hx1 hx2 hy1 hy2 h
    rw [bcd_field_of_byte x hx, bcd_field_of_byte y hy] at h
    simp only [shiftRight_four, and_fifteen] at hx1 hx2 hy1 hy2 h
    omega
  · exact ⟨by decide, by decide, by decide, rfl, rfl⟩

/-- Witness for C16: the valid bytes `0x45` and `0x45` meet the hypotheses of
the injectivity part. -/
theorem bcd_field_injective_on_valid_witness :
    bcd_field 0x45 = bcd_field 0x45 ∧ (0x45 : Nat) = 0x45 :=
  ⟨rfl, bcd_field_injective_on_valid.1 0x45 0x45 (by decide) (by decide) (by decide) (by decide)
    (by decide) (by decide) rfl⟩


/-! ## Port protocol and lock scope -/

/-- The trace left by one `get_register`. -/
theorem get_register_trace {σ : Type} (d : Device σ) (reg : Nat) (m : Machine σ) :
    (get_register d reg m).2.trace
      = m.trace ++ [Event.outb 0x70 (reg % 256), Event.inb 0x71 (get_register d reg m).1] := by
  simp [get_register, __inb, __outb]

/-- The trace left by one two-argument `get_register`. -/
theorem get_register_bit_trace {σ : Type} (d : Device σ) (reg bit : Nat) (m : Machine σ) :
    (get_register_bit d reg bit m).2.trace
      = m.trace ++ [Event.outb 0x70 (reg % 256), Event.inb 0x71 (get_register d reg m).1] := by
  simp only [get_register_bit]
  exact get_register_trace d reg m

/-- The wait loop of `get_timepoint` only adds port accesses to the trace. -/
theorem get_timepoint_wait_trace {σ : Type} (d : Device σ) (fuel : Nat) :
    ∀ (b : Bool) (m m1 : Machine σ), get_timepoint_wait d fuel b m = some m1 →
      ∃ l : List Event, m1.trace = m.trace ++ l ∧ ∀ e ∈ l, e.isPort = true := by
  induction fuel with
  | zero =>
    intro b m m1 h
    cases b with
    | false =>
      simp only [get_timepoint_wait, Option.some.injEq] at h
      exact ⟨[], by simp [h], by simp⟩
    | true => simp [get_timepoint_wait] at h
  | succ n ih =>
    intro b m m1 h
    cases b with
    | false =>
      simp only [get_timepoint_wait, Option.some.injEq] at h
      exact ⟨[], by simp [h], by simp⟩
    | true =>
      simp only [get_timepoint_wait] at h
      obtain ⟨l, hl, hp⟩ := ih _ _ m1 h
      refine ⟨[Event.outb 0x70 (0xA % 256), Event.inb 0x71 (get_register d 0xA m).1] ++ l, ?_, ?_⟩
      · rw [hl, get_register_bit_trace, List.append_assoc]
      · intro e he
        simp only [List.cons_append, List.nil_append, List.mem_cons] at he
        rcases he with rfl | rfl | he
        · rfl
        · rfl
        · exact hp e he

/-- Replaying a trace in two parts. -/
theorem lock_scan_append (a b : List Event) :
    ∀ n : Nat, lock_scan n (a ++ b) = (lock_scan n a).bind (fun k => lock_scan k b) := by
  induction a with
  | nil => intro n; simp [lock_scan]
  | cons e t ih =>
    intro n
    cases e <;> cases n <;> simp [lock_scan, ih]

/-- Port accesses made while a lock is held replay without a change. -/
theorem lock_scan_ports (l : List Event) (hp : ∀ e ∈ l, e.isPort = true) :
    ∀ n : Nat, lock_scan (n + 1) l = some (n + 1) := by
  induction l with
  | nil => intro n; rfl
  | cons e t ih =>
    intro n
    have ht : ∀ e ∈ t, e.isPort = true := fun x hx => hp x (List.mem_cons_of_mem _ hx)
    have he : e.isPort = true := hp e (List.mem_cons_self _ _)
    cases e with
    | irq_lock => simp [Event.isPort] at he
    | irq_unlock => simp [Event.isPort] at he
    | outb p v => simp only [lock_scan]; exact ih ht n
    | inb p v => simp only [lock_scan]; exact ih ht n

/-- The whole trace of one `get_timepoint` that returns: the lock, the first
status-A poll, further polls, the six field reads, the release. -/
theorem get_timepoint_trace {σ : Type} (d : Device σ) (fuel : Nat) (m : Machine σ)
    (tp : RTCTimePoint) (m2 : Machine σ) (h : get_timepoint d fuel m = some (tp, m2)) :
    ∃ (v : Nat) (polls : List Event), (∀ e ∈ polls, e.isPort = true) ∧
      m2.trace = m.trace ++ ([Event.irq_lock, Event.outb 0x70 0x0A, Event.inb 0x71 v] ++ polls ++
        [Event.outb 0x70 0x00, Event.inb 0x71 tp.seconds,
         Event.outb 0x70 0x02, Event.inb 0x71 tp.minutes,
         Event.outb 0x70 0x04, Event.inb 0x71 tp.hours,
         Event.outb 0x70 0x07, Event.inb 0x71 tp.day_of_month,
         Event.outb 0x70 0x08, Event.inb 0x71 tp.month,
         Event.outb 0x70 0x09, Event.inb 0x71 tp.year] ++ [Event.irq_unlock]) := by
  obtain ⟨m1, hw, htp, hm2⟩ := get_timepoint_eq_some d fuel m tp m2 h
  obtain ⟨polls, hl, hp⟩ := get_timepoint_wait_trace d fuel _ _ m1 hw
  refine ⟨(get_register d 0xA (irq_lock m)).1, polls, hp, ?_⟩
  rw [get_register_bit_trace] at hl
  rw [hm2, htp]
  simp [get_timepoint_fields, get_register, __inb, __outb, irq_unlock, irq_lock] at hl ⊢
  rw [hl]
  simp

/-- One `get_timepoint` that returns adds a trace that replays from no lock
held to no lock held. -/
theorem get_timepoint_lock_scan {σ : Type} (d : Device σ) (fuel : Nat) (m : Machine σ)
    (tp : RTCTimePoint) (m2 : Machine σ) (h : get_timepoint d fuel m = some (tp, m2)) :
    ∃ l : List Event, m2.trace = m.trace ++ l ∧ lock_scan 0 l = some 0 := by
  obtain ⟨v, polls, hp, ht⟩ := get_timepoint_trace d fuel m tp m2 h
  refine ⟨_, ht, ?_⟩
  have h1 : lock_scan 0 [Event.irq_lock, Event.outb 0x70 0x0A, Event.inb 0x71 v] = some 1 := rfl
  have h2 : lock_scan 1 polls = some 1 := lock_scan_ports polls hp 0
  have h3 : lock_scan 1
      [Event.outb 0x70 0x00, Event.inb 0x71 tp.seconds,
       Event.outb 0x70 0x02, Event.inb 0x71 tp.minutes,
       Event.outb 0x70 0x04, Event.inb 0x71 tp.hours,
       Event.outb 0x70 0x07, Event.inb 0x71 tp.day_of_month,
       Event.outb 0x70 0x08, Event.inb 0x71 tp.month,
       Event.outb 0x70 0x09, Event.inb 0x71 tp.year] = some 1 := rfl
  have h4 : lock_scan 1 [Event.irq_unlock] = some 0 := rfl
  rw [lock_scan_append, lock_scan_append, lock_scan_append, h1, Option.some_bind, h2,
    Option.some_bind, h3, Option.some_bind, h4]

/-- The trace added by `is_bcd`. -/
theorem is_bcd_trace {σ : Type} (d : Device σ) (m : Machine σ) :
    (is_bcd d m).2.trace = m.trace ++
      [Event.irq_lock, Event.outb 0x70 0x0B, Event.inb 0x71 (get_register d 0xB (irq_lock m)).1,
       Event.irq_unlock] := by
  have h : (is_bcd d m).2 = irq_unlock (get_register_bit d 0xB 2 (irq_lock m)).2 := by
    simp only [is_bcd]
    split <;> rfl
  rw [h]
  simp [irq_unlock, get_register_bit_trace, irq_lock]

/-- The retry loop adds a trace that replays from no lock held to no lock
held. -/
theorem read_timepoint_loop_lock_scan {σ : Type} (d : Device σ) (fuel : Nat) :
    ∀ (n : Nat) (tp : RTCTimePoint) (m : Machine σ) (e : LoopExit σ),
      read_timepoint_loop d fuel n tp m = some e →
      ∃ l : List Event, e.mach.trace = m.trace ++ l ∧ lock_scan 0 l = some 0 := by
  intro n
  induction n with
  | zero => intro tp m e h; simp [read_timepoint_loop] at h
  | succ n ih =>
    intro tp m e h
    unfold read_timepoint_loop at h
    split at h
    · exact absurd h (by simp)
    · rename_i tp1 m1 hg
      obtain ⟨l1, hl1, hs1⟩ := get_timepoint_lock_scan d fuel m tp1 m1 hg
      split at h
      · obtain ⟨l2, hl2, hs2⟩ := ih tp1 m1 e h
        refine ⟨l1 ++ l2, ?_, ?_⟩
        · rw [hl2, hl1, List.append_assoc]
        · rw [lock_scan_append, hs1]
          exact hs2
      · have he : e = { prev := tp, tp := tp1, mach := m1 } := (Option.some.inj h).symm
        rw [he]
        exact ⟨l1, hl1, hs1⟩


/-- What `read_timepoint` returns, when it returns, in terms of the state at
which the retry loop was left. -/
theorem read_timepoint_eq_some {σ : Type} (d : Device σ) (fuel : Nat) (m : Machine σ)
    (tp : RTCTimePoint) (m2 : Machine σ) (h : read_timepoint d fuel m = some (tp, m2)) :
    ∃ e : LoopExit σ, read_timepoint_snapshot d fuel m = some e ∧
      m2 = (is_bcd d e.mach).2 ∧
      tp = if (is_bcd d e.mach).1 then convert_BCD_to_binary e.tp else e.tp := by
  unfold read_timepoint at h
  split at h
  · exact absurd h (by simp)
  · rename_i e he
    refine ⟨e, he, ?_, ?_⟩
    · split at h <;> exact (congrArg Prod.snd (Option.some.inj h)).symm
    · split at h
      · rename_i hb
        rw [if_pos hb]
        exact (congrArg Prod.fst (Option.some.inj h)).symm
      · rename_i hb
        rw [if_neg hb]
        exact (congrArg Prod.fst (Option.some.inj h)).symm

/-- The state at which the retry loop is left: the stop condition holds between
`tp` and `prev`, `tp` was returned by the last `get_timepoint`, and `prev` is
either the value the loop was entered with or the result of the call before. -/
theorem read_timepoint_loop_exit {σ : Type} (d : Device σ) (fuel : Nat) :
    ∀ (n : Nat) (tp : RTCTimePoint) (m : Machine σ) (e : LoopExit σ),
      read_timepoint_loop d fuel n tp m = some e →
      read_timepoint_cond e.tp e.prev = false ∧
      ∃ mk : Machine σ, get_timepoint d fuel mk = some (e.tp, e.mach) ∧
        ((e.prev = tp ∧ mk = m) ∨ ∃ mj : Machine σ, get_timepoint d fuel mj = some (e.prev, mk)) := by
  intro n
  induction n with
  | zero => intro tp m e h; simp [read_timepoint_loop] at h
  | succ n ih =>
    intro tp m e h
    unfold read_timepoint_loop at h
    split at h
    · exact absurd h (by simp)
    · rename_i tp1 m1 hg
      split at h
      · obtain ⟨hc, mk, hk, hprev⟩ := ih tp1 m1 e h
        refine ⟨hc, mk, hk, Or.inr ?_⟩
        rcases hprev with ⟨hp, hm⟩ | ⟨mj, hj⟩
        · exact ⟨m, by rw [hp, hm]; exact hg⟩
        · exact ⟨mj, hj⟩
      · rename_i hc
        have he : e = { prev := tp, tp := tp1, mach := m1 } := (Option.some.inj h).symm
        rw [he]
        exact ⟨by simpa using hc, m, hg, Or.inl ⟨rfl, rfl⟩⟩

/-- C13: register access protocol. For a register index in 0..255, the
one-argument `get_register` adds exactly two events to the trace, a write of
the index to port `0x70` and then a read of port `0x71`, and returns the byte
this read produced, unchanged. -/
theorem get_register_protocol {σ : Type} (d : Device σ) (reg : Nat) (m : Machine σ)
    (hreg : reg ≤ 255) :
    (get_register d reg m).2.trace
      = m.trace ++ [Event.outb 0x70 reg, Event.inb 0x71 (get_register d reg m).1] ∧
    (get_register d reg m).1 = (d.inb (d.outb m.dev 0x70 reg) 0x71).1 % 256 ∧
    (get_register d reg m).2.dev = (d.inb (d.outb m.dev 0x70 reg) 0x71).2 := by
  have hmod : reg % 256 = reg := Nat.mod_eq_of_lt (by omega)
  refine ⟨?_, ?_, ?_⟩
  · rw [get_register_trace, hmod]
  · simp only [get_register, __inb, __outb, hmod]
  · simp only [get_register, __inb, __outb, hmod]

/-- Witness for C13: reading status register B, which holds `0x02`. -/
theorem get_register_protocol_witness :
    (get_register simDevice 0x0B (simStart [] 0x80 [scenarioRaw] 0x02)).2.trace
      = [Event.outb 0x70 0x0B, Event.inb 0x71 0x02] ∧
    (get_register simDevice 0x0B (simStart [] 0x80 [scenarioRaw] 0x02)).1 = 0x02 :=
  ⟨(get_register_protocol simDevice 0x0B (simStart [] 0x80 [scenarioRaw] 0x02) (by decide)).1,
    rfl⟩

/-- C12: interrupt suppression scope. When `read_timepoint` returns, the trace
it added replays with every port access made under a held lock and ends with
no lock held. Each `get_timepoint` that returns adds: the acquisition, the
first status-A poll, further port accesses of the wait loop, the six field
reads, the release. Each `is_bcd` adds: the acquisition, the read of status
register B, the release. -/
theorem read_timepoint_lock_scope {σ : Type} (d : Device σ) (fuel : Nat) (m : Machine σ)
    (tp : RTCTimePoint) (m2 : Machine σ) (h : read_timepoint d fuel m = some (tp, m2)) :
    (∃ l : List Event, m2.trace = m.trace ++ l ∧ lock_scan 0 l = some 0) ∧
    (∀ (m0 : Machine σ) (tp0 : RTCTimePoint) (m1 : Machine σ),
      get_timepoint d fuel m0 = some (tp0, m1) →
      ∃ (v : Nat) (polls : List Event), (∀ e ∈ polls, e.isPort = true) ∧
        m1.trace = m0.trace ++
          ([Event.irq_lock, Event.outb 0x70 0x0A, Event.inb 0x71 v] ++ polls ++
          [Event.outb 0x70 0x00, Event.inb 0x71 tp0.seconds,
           Event.outb 0x70 0x02, Event.inb 0x71 tp0.minutes,
           Event.outb 0x70 0x04, Event.inb 0x71 tp0.hours,
           Event.outb 0x70 0x07, Event.inb 0x71 tp0.day_of_month,
           Event.outb 0x70 0x08, Event.inb 0x71 tp0.month,
           Event.outb 0x70 0x09, Event.inb 0x71 tp0.year] ++ [Event.irq_unlock])) ∧
    (∀ m0 : Machine σ, (is_bcd d m0).2.trace = m0.trace ++
      [Event.irq_lock, Event.outb 0x70 0x0B,
       Event.inb 0x71 (get_register d 0xB (irq_lock m0)).1, Event.irq_unlock]) := by
  refine ⟨?_, fun m0 tp0 m1 hg => get_timepoint_trace d fuel m0 tp0 m1 hg,
    fun m0 => is_bcd_trace d m0⟩
  obtain ⟨e, hs, hm2, -⟩ := read_timepoint_eq_some d fuel m tp m2 h
  unfold read_timepoint_snapshot at hs
  split at hs
  · exact absurd hs (by simp)
  · rename_i tp0 m1 hg
    obtain ⟨l1, hl1, hs1⟩ := get_timepoint_lock_scan d fuel m tp0 m1 hg
    obtain ⟨l2, hl2, hs2⟩ := read_timepoint_loop_lock_scan d fuel fuel tp0 m1 e hs
    refine ⟨l1 ++ (l2 ++ [Event.irq_lock, Event.outb 0x70 0x0B,
      Event.inb 0x71 (get_register d 0xB (irq_lock e.mach)).1, Event.irq_unlock]), ?_, ?_⟩
    · rw [hm2, is_bcd_trace, hl2, hl1, List.append_assoc, List.append_assoc]
    · rw [lock_scan_append, hs1, Option.some_bind, lock_scan_append, hs2, Option.some_bind]
      rfl

/-- Witness for C12: a run of `read_timepoint` on the simulated clock of
scenario A; its whole trace replays from no lock held to no lock held. -/
theorem read_timepoint_lock_scope_witness :
    ∃ l : List Event,
      ((read_timepoint simDevice 1 (simStart [] 0x80 [scenarioRaw] 0x02)).get rfl).2.trace
        = [] ++ l ∧ lock_scan 0 l = some 0 :=
  (read_timepoint_lock_scope simDevice 1 (simStart [] 0x80 [scenarioRaw] 0x02)
    ((read_timepoint simDevice 1 (simStart [] 0x80 [scenarioRaw] 0x02)).get rfl).1
    ((read_timepoint simDevice 1 (simStart [] 0x80 [scenarioRaw] 0x02)).get rfl).2 rfl).1

/-- C14: exact acceptance rule of the retry loop. The loop condition is false
exactly when the seconds are equal or one of the other five fields differs;
after each snapshot read in the loop, the loop stops with that snapshot if this
holds against the previous one and goes on with it otherwise; when the loop is
left, `prev` and `tp` are the results of two consecutive `get_timepoint` calls
(so at least two snapshots were read) and `tp`, the last one read, is the one
that is normalised and returned. -/
theorem read_timepoint_acceptance_rule {σ : Type} (d : Device σ) (fuel : Nat) (m : Machine σ)
    (e : LoopExit σ) (hs : read_timepoint_snapshot d fuel m = some e) :
    (∀ tp prev : RTCTimePoint, read_timepoint_cond tp prev = false ↔
      (tp.seconds = prev.seconds ∨ tp.minutes ≠ prev.minutes ∨ tp.hours ≠ prev.hours ∨
        tp.day_of_month ≠ prev.day_of_month ∨ tp.month ≠ prev.month ∨ tp.year ≠ prev.year)) ∧
    (∀ (n : Nat) (tp : RTCTimePoint) (m0 : Machine σ) (tp1 : RTCTimePoint) (m1 : Machine σ),
      get_timepoint d fuel m0 = some (tp1, m1) →
      read_timepoint_loop d fuel (n + 1) tp m0
        = if read_timepoint_cond tp1 tp = false then some { prev := tp, tp := tp1, mach := m1 }
          else read_timepoint_loop d fuel n tp1 m1) ∧
    (∃ mj mk : Machine σ, get_timepoint d fuel mj = some (e.prev, mk) ∧
      get_timepoint d fuel mk = some (e.tp, e.mach)) ∧
    read_timepoint_cond e.tp e.prev = false ∧
    (read_timepoint d fuel m).map Prod.fst
      = some (if (is_bcd d e.mach).1 then convert_BCD_to_binary e.tp else e.tp) := by
  refine ⟨?_, ?_, ?_, ?_, ?_⟩
  · intro tp prev
    simp only [read_timepoint_cond, Bool.and_true, Bool.and_eq_false_imp, Bool.and_eq_true,
      Bool.not_eq_true', beq_eq_false_iff_ne, beq_iff_eq, ne_eq]
    tauto
  · intro n tp m0 tp1 m1 hg
    rw [read_timepoint_loop, hg]
    cases hc : read_timepoint_cond tp1 tp <;> simp [hc]
  · unfold read_timepoint_snapshot at hs
    split at hs
    · exact absurd hs (by simp)
    · rename_i tp0 m1 hg
      obtain ⟨-, mk, hk, hprev⟩ := read_timepoint_loop_exit d fuel fuel tp0 m1 e hs
      rcases hprev with ⟨hp, hm⟩ | ⟨mj, hj⟩
      · exact ⟨m, mk, by rw [hp, hm]; exact hg, hk⟩
      · exact ⟨mj, mk, hj, hk⟩
  · unfold read_timepoint_snapshot at hs
    split at hs
    · exact absurd hs (by simp)
    · exact (read_timepoint_loop_exit d fuel fuel _ _ e hs).1
  · simp only [read_timepoint, hs]
    split <;> simp_all

/-- Witness for C14: the simulated clock delivers `tornRaw`, `laterRaw`,
`laterRaw`. The second snapshot differs from the first in the seconds only, so
the loop goes on; the third has the seconds of the second, so the loop stops,
and the third snapshot is returned, decoded. -/
theorem read_timepoint_acceptance_rule_witness :
    (read_timepoint simDevice 2 (simStart [] 0x80 [tornRaw, laterRaw, laterRaw] 0x02)).map Prod.fst
      = some { seconds := 46, minutes := 31, hours := 12, day_of_month := 25, month := 9,
               year := 23 } := by
  have hs : read_timepoint_snapshot simDevice 2 (simStart [] 0x80 [tornRaw, laterRaw, laterRaw] 0x02)
      = some ((read_timepoint_snapshot simDevice 2
          (simStart [] 0x80 [tornRaw, laterRaw, laterRaw] 0x02)).get rfl) := by
    simp only [Option.some_get]
  exact (read_timepoint_acceptance_rule simDevice 2
    (simStart [] 0x80 [tornRaw, laterRaw, laterRaw] 0x02) _ hs).2.2.2.2.trans rfl


end CMOSRTC
